import Mathlib

/-!
Verification of the job-hunt-platform store layer (`internal/db/db.go`) against
its specification.  The SQLite-backed table is embedded as a list of rows;
each store operation is translated into a pure Lean function on that list.
Wall-clock timestamps (`time.Now().UTC().Format(time.RFC3339)`) are passed in
as explicit string parameters; RFC3339 UTC strings compare correctly under
lexicographic string order, which is also how SQLite compares TEXT columns.
-/

/-- A row of the `applications` table (Go struct `model.Application`). -/
structure Application where
  id : String
  company : String
  role : String
  url : String
  salaryMin : Int
  salaryMax : Int
  location : String
  status : String
  notes : String
  appliedAt : String
  createdAt : String
  updatedAt : String
  deriving Repr, DecidableEq

/-- Go struct `model.CreateRequest`; the salary bounds are `*int` (nullable). -/
structure CreateRequest where
  company : String := ""
  role : String := ""
  url : String := ""
  salaryMin : Option Int := none
  salaryMax : Option Int := none
  location : String := ""
  status : String := ""
  notes : String := ""
  appliedAt : String := ""
  deriving Repr, DecidableEq

/-- A dynamically typed SQL parameter, standing for the `interface\x7b\x7d`
values of the Go `fields` map handed to `Update`. -/
inductive SqlValue where
  | str (s : String)
  | int (n : Int)
  deriving Repr, DecidableEq

/-- Storing an `SqlValue` into a TEXT-affinity column: SQLite renders an
integer as its decimal text. -/
def SqlValue.toText : SqlValue → String
  | .str s => s
  | .int n => toString n

/-- Storing an `SqlValue` into an INTEGER-affinity column: SQLite keeps
integers and converts numeric text.  (Non-numeric text would be kept as TEXT
by SQLite and later fail the Go scan; no claim exercises that corner, and we
default it to 0.) -/
def SqlValue.toInt : SqlValue → Int
  | .int n => n
  | .str s => (s.toInt?).getD 0

/-- The table contents, in insertion order. -/
abbrev Store := List Application

/-- `SELECT ... LIMIT ? OFFSET ?` semantics: a negative OFFSET acts as 0 and a
negative LIMIT means "no upper bound" (SQLite documented behavior). -/
def sqlSlice (limit offset : Int) (l : List Application) : List Application :=
  let dropped := l.drop offset.toNat
  if limit < 0 then dropped else dropped.take limit.toNat

/-- Lexicographic order on character lists: SQLite compares TEXT values
bytewise, which on these ASCII RFC3339 strings is the same order. -/
def charsLe : List Char → List Char → Bool
  | [], _ => true
  | _ :: _, [] => false
  | c :: cs, d :: ds => if c = d then charsLe cs ds else decide (c < d)

/-- TEXT-column `<=` (SQLite bytewise comparison). -/
def strLe (a b : String) : Bool :=
  charsLe a.toList b.toList

/-- TEXT-column `<` (SQLite bytewise comparison). -/
def strLt (a b : String) : Bool :=
  !strLe b a

/-- `ORDER BY updated_at DESC` comparison used by `List`. -/
def updatedAtDesc (a b : Application) : Bool :=
  strLe b.updatedAt a.updatedAt

/-- `Store.Count` from `internal/db/db.go`: `SELECT COUNT(*)` with an optional
`WHERE status = ?` clause added only when the status argument is nonempty. -/
def Store.count (s : Store) (status : String) : Nat :=
  if status == "" then s.length
  else (s.filter (fun a => a.status == status)).length

/-- `Store.List` from `internal/db/db.go`: optional status equality filter,
`ORDER BY updated_at DESC`, then `LIMIT ? OFFSET ?`.  The Go code never
returns nil: a nil slice is normalized to the empty slice, so the result type
is a plain list. -/
def Store.list (s : Store) (status : String) (limit offset : Int) :
    List Application :=
  let rows := if status == "" then s else s.filter (fun a => a.status == status)
  sqlSlice limit offset
    (List.insertionSort (fun a b => updatedAtDesc a b = true) rows)

/-- `Store.Get`: `SELECT ... WHERE id = ?`; `sql.ErrNoRows` is mapped to the
non-error empty result `none`. -/
def Store.get (s : Store) (id : String) : Option Application :=
  s.find? (fun a => a.id == id)

/-- The row assembled by `Store.Create`: absent (`nil`) salary bounds are
stored as the sentinel 0, an empty status defaults to `"wishlist"`, and both
timestamps are set to `now`. -/
def mkRow (req : CreateRequest) (id now : String) : Application :=
  { id := id
    company := req.company
    role := req.role
    url := req.url
    salaryMin := req.salaryMin.getD 0
    salaryMax := req.salaryMax.getD 0
    location := req.location
    status := if req.status == "" then "wishlist" else req.status
    notes := req.notes
    appliedAt := req.appliedAt
    createdAt := now
    updatedAt := now }

/-- `Store.Create`: INSERT the assembled row, then re-read it via `Get`. -/
def Store.create (s : Store) (req : CreateRequest) (id now : String) :
    Option Application × Store :=
  let s2 := s ++ [mkRow req id now]
  (Store.get s2 id, s2)

/-- The closed whitelist of mutable columns in `Store.Update` (the `allowed`
map; JSON keys and column names coincide). -/
def allowedColumns : List String :=
  ["company", "role", "url", "salary_min", "salary_max", "location",
   "status", "notes", "applied_at"]

/-- The sparse change set handed to `Update` (Go `map[string]interface\x7b\x7d`),
as an association list. -/
abbrev Fields := List (String × SqlValue)

/-- Assign one column of a row (one `col = ?` SET clause). -/
def setCol (a : Application) (col : String) (v : SqlValue) : Application :=
  if col == "company" then { a with company := v.toText }
  else if col == "role" then { a with role := v.toText }
  else if col == "url" then { a with url := v.toText }
  else if col == "salary_min" then { a with salaryMin := v.toInt }
  else if col == "salary_max" then { a with salaryMax := v.toInt }
  else if col == "location" then { a with location := v.toText }
  else if col == "status" then { a with status := v.toText }
  else if col == "notes" then { a with notes := v.toText }
  else if col == "applied_at" then { a with appliedAt := v.toText }
  else a

/-- Apply every SET clause of the UPDATE statement: each whitelisted column
present in the change set is assigned its supplied value. -/
def applySet (fields : Fields) (a : Application) : Application :=
  allowedColumns.foldl
    (fun acc col =>
      match fields.lookup col with
      | some v => setCol acc col v
      | none => acc)
    a

/-- `Store.Update` from `internal/db/db.go`: inside one transaction, read the
row by id (absent ⇒ `(none, s)`, not an error); compute the SET clauses from
the intersection of the supplied keys with `allowedColumns`; if none, return
the just-read row with the store untouched; otherwise execute
`UPDATE ... SET <cols>, updated_at = now WHERE id = ?` and re-read the row. -/
def Store.update (s : Store) (id : String) (fields : Fields) (now : String) :
    Option Application × Store :=
  match s.find? (fun a => a.id == id) with
  | none => (none, s)
  | some existing =>
    let assigned := allowedColumns.filter (fun col => (fields.lookup col).isSome)
    if assigned.isEmpty then (some existing, s)
    else
      let s2 := s.map (fun a =>
        if a.id == id then { applySet fields a with updatedAt := now } else a)
      (s2.find? (fun a => a.id == id), s2)

/-- `Store.Delete`: `DELETE FROM applications WHERE id = ?`; the boolean is
`RowsAffected > 0`. -/
def Store.delete (s : Store) (id : String) : Bool × Store :=
  (decide (0 < s.countP (fun a => a.id == id)),
   s.filter (fun a => !(a.id == id)))

/-- `model.ValidStatuses`, the fixed 9-value status enumeration. -/
def validStatuses : List String :=
  ["wishlist", "applied", "phone_screen", "interview", "offer",
   "accepted", "rejected", "withdrawn", "ghosted"]

structure SalaryRange where
  min : Int
  max : Int
  avg : Int
  deriving Repr, DecidableEq

structure StatsResponse where
  total : Nat
  byStatus : List (String × Nat)
  salaryRange : SalaryRange
  last7Days : Nat
  last30Days : Nat
  deriving Repr, DecidableEq

/-- The distinct keys produced by `GROUP BY status`, in first-occurrence
order. -/
def distinctKeys : List String → List String
  | [] => []
  | x :: xs => x :: (distinctKeys xs).filter (fun y => !(y == x))

/-- Go map assignment `m[k] = v` on an association list: overwrite the entry
if the key exists, otherwise append it. -/
def setEntry (m : List (String × Nat)) (k : String) (v : Nat) :
    List (String × Nat) :=
  if m.any (fun p => p.1 == k) then
    m.map (fun p => if p.1 == k then (k, v) else p)
  else m ++ [(k, v)]

/-- `COALESCE(MIN(x), 0)` over a column. -/
def aggMin : List Int → Int
  | [] => 0
  | x :: xs => xs.foldl min x

/-- `COALESCE(MAX(x), 0)` over a column. -/
def aggMax : List Int → Int
  | [] => 0
  | x :: xs => xs.foldl max x

/-- `COALESCE(CAST(AVG(x) AS INTEGER), 0)`: SQLite's CAST truncates toward
zero, which is Lean's `Int` division for these values. -/
def aggAvg (l : List Int) : Int :=
  if l.isEmpty then 0 else (l.foldl (· + ·) 0) / (l.length : Int)

/-- The salary-aggregate row of the Stats query, computed over the rows the
`WHERE salary_min > 0` clause admits. -/
def salaryAgg (qual : Store) : SalaryRange :=
  { min := aggMin (qual.map (fun a => a.salaryMin))
    max := aggMax (qual.map (fun a => a.salaryMax))
    avg := aggAvg (qual.map (fun a => a.salaryMin)) }

/-- `Store.Stats` from `internal/db/db.go`: (1) pre-populate every valid
status with 0, then overwrite from `GROUP BY status` while summing the total;
(2) salary aggregate over `WHERE salary_min > 0` with COALESCE defaults;
(3) recent-activity counts `created_at >= cutoff` for the two cutoff strings
computed from the wall clock by the caller. -/
def Store.stats (s : Store) (sevenDaysAgo thirtyDaysAgo : String) :
    StatsResponse :=
  let groups := (distinctKeys (s.map (fun a => a.status))).map
    (fun st => (st, s.countP (fun a => a.status == st)))
  let byStatus := groups.foldl (fun m g => setEntry m g.1 g.2)
    (validStatuses.map (fun st => (st, 0)))
  let total := groups.foldl (fun t g => t + g.2) 0
  let qual := s.filter (fun a => decide (0 < a.salaryMin))
  { total := total
    byStatus := byStatus
    salaryRange := salaryAgg qual
    last7Days := s.countP (fun a => strLe sevenDaysAgo a.createdAt)
    last30Days := s.countP (fun a => strLe thirtyDaysAgo a.createdAt) }

/-! ### The `ListOptions`-based query layer

The current repository snapshot ships the tests, the HTTP handler, and the
architecture document for a richer `List`/`Count` pair taking a
`model.ListOptions` filter specification and sharing a `buildWhere` helper,
but that revision of `internal/db/db.go` and `internal/model` is not among
the source files.  The definitions below are therefore modelled from the
specification (sections 4.1, 4.2, 4.3, 4.4), the `buildWhere` excerpt in
`ARCHITECTURE.md`, and the field names used by the tests. -/

/-- Modelled from the spec: `model.ListOptions`, the filter/sort/pagination
specification (missing from the snapshot's `internal/model`).  Every filter
field is independently absent: empty string for text and date filters, and an
explicit "is set" boolean for each numeric bound, because 0 is a valid flag
state but not a valid bound. -/
structure ListOptions where
  status : String := ""
  company : String := ""
  role : String := ""
  location : String := ""
  appliedAfter : String := ""
  appliedBefore : String := ""
  salaryMinGTE : Int := 0
  salaryMaxLTE : Int := 0
  hasSalaryMinGTE : Bool := false
  hasSalaryMaxLTE : Bool := false
  sortBy : String := ""
  sortOrder : String := ""
  limit : Int := 0
  offset : Int := 0
  deriving Repr, DecidableEq

/-- Does the pattern match at the head of the haystack? -/
def subAt : List Char → List Char → Bool
  | [], _ => true
  | _ :: _, [] => false
  | p :: ps, h :: hs => p == h && subAt ps hs

/-- Does the pattern occur anywhere in the haystack? -/
def hasSub : List Char → List Char → Bool
  | [], pat => pat.isEmpty
  | h :: hs, pat => subAt pat (h :: hs) || hasSub hs pat

/-- `LOWER(col) LIKE LOWER('%' || pat || '%')`: case-insensitive substring
containment. -/
def likeSub (hay pat : String) : Bool :=
  hasSub hay.toLower.toList pat.toLower.toList

/-- Modelled from the spec: the predicate produced by the missing
`Store.buildWhere` helper — `WHERE 1=1` conjoined with one condition per
present filter field, in the fixed field order; substring filters are
case-folded on both sides, date bounds compare inclusively against
`created_at`, and the upper salary bound additionally requires
`salary_max > 0` (sentinel-zero exclusion). -/
def matchesWhere (opts : ListOptions) (a : Application) : Bool :=
  (opts.status == "" || a.status == opts.status) &&
  (opts.company == "" || likeSub a.company opts.company) &&
  (opts.role == "" || likeSub a.role opts.role) &&
  (opts.location == "" || likeSub a.location opts.location) &&
  (opts.appliedAfter == "" || strLe opts.appliedAfter a.createdAt) &&
  (opts.appliedBefore == "" || strLe a.createdAt opts.appliedBefore) &&
  (!opts.hasSalaryMinGTE || decide (opts.salaryMinGTE ≤ a.salaryMin)) &&
  (!opts.hasSalaryMaxLTE ||
    (decide (0 < a.salaryMax) && decide (a.salaryMax ≤ opts.salaryMaxLTE)))

/-- Modelled from the spec: `model.ValidSortColumns`, the closed sort-column
allowlist (missing from the snapshot's `internal/model`). -/
def validSortColumns : List String :=
  ["company", "role", "status", "salary_min", "salary_max", "location",
   "created_at", "updated_at"]

/-- Ascending comparison on one allowlisted column. -/
def colLe (col : String) (a b : Application) : Bool :=
  if col == "company" then strLe a.company b.company
  else if col == "role" then strLe a.role b.role
  else if col == "status" then strLe a.status b.status
  else if col == "salary_min" then decide (a.salaryMin ≤ b.salaryMin)
  else if col == "salary_max" then decide (a.salaryMax ≤ b.salaryMax)
  else if col == "location" then strLe a.location b.location
  else if col == "created_at" then strLe a.createdAt b.createdAt
  else strLe a.updatedAt b.updatedAt

/-- Modelled from the spec: the dynamic `ORDER BY` resolution — default
`updated_at DESC`; a sort column is interpolated only when present in the
allowlist, ascending unless the order is `"desc"`. -/
def resolveLe (opts : ListOptions) : Application → Application → Bool :=
  if opts.sortBy != "" && validSortColumns.contains opts.sortBy then
    (if opts.sortOrder == "desc" then fun a b => colLe opts.sortBy b a
     else colLe opts.sortBy)
  else fun a b => strLe b.updatedAt a.updatedAt

/-- Modelled from the spec: the missing `ListOptions`-based `Store.Count` —
`SELECT COUNT(*)` under exactly the `buildWhere` predicate, ignoring
sort/limit/offset. -/
def Store.countOpts (s : Store) (opts : ListOptions) : Nat :=
  (s.filter (matchesWhere opts)).length

/-- Modelled from the spec: the missing `ListOptions`-based `Store.List` —
the `buildWhere` predicate, the resolved `ORDER BY`, then
`LIMIT ? OFFSET ?`. -/
def Store.listOpts (s : Store) (opts : ListOptions) : List Application :=
  sqlSlice opts.limit opts.offset
    (List.insertionSort (fun a b => resolveLe opts a b = true)
      (s.filter (matchesWhere opts)))

/-! ### Concrete sample data for witnesses and counterexamples -/

/-- A concrete row, as created by `Store.create` with no optional data. -/
def sampleApp : Application :=
  { id := "a1b2c3d4", company := "TestCo", role := "Engineer", url := ""
    salaryMin := 0, salaryMax := 0, location := "", status := "wishlist"
    notes := "", appliedAt := "", createdAt := "2026-02-01T00:00:00Z"
    updatedAt := "2026-02-01T00:00:00Z" }

/-! ### C3 and C4 -/

/-- C3: `Update(id, {})` with an empty change set returns exactly what `Get`
returns (the current record when the id exists) and leaves the store — every
stored field of every record, `updated_at` included — unchanged: no SET
clause is computed, so no write statement is issued. -/
theorem update_empty_changeset (s : Store) (id now : String) :
    Store.update s id [] now = (Store.get s id, s) := by
  unfold Store.update Store.get
  cases h : s.find? (fun a => a.id == id) <;> simp [h, allowedColumns]

/-- C4: for an id matching no record, `Get` returns the empty result `none`,
`Update` returns the empty result with the store untouched whatever change
set is supplied, and `Delete` reports `false` — absence is signalled on the
non-error path of each operation. -/
theorem absent_id_empty_results (s : Store) (id : String)
    (h : ∀ a ∈ s, ¬a.id = id) :
    Store.get s id = none
    ∧ (∀ fields now, Store.update s id fields now = (none, s))
    ∧ Store.delete s id = (false, s) := by
  have hfind : s.find? (fun a => a.id == id) = none := by
    rw [List.find?_eq_none]
    intro a ha
    simpa using h a ha
  refine ⟨hfind, fun fields now => ?_, ?_⟩
  · unfold Store.update
    simp [hfind]
  · unfold Store.delete
    have h0 : s.countP (fun a => a.id == id) = 0 := by
      rw [List.countP_eq_zero]
      intro a ha
      simpa using h a ha
    have hf : s.filter (fun a => !(a.id == id)) = s := by
      rw [List.filter_eq_self]
      intro a ha
      simpa using h a ha
    simp [h0, hf]

/-- Witness for C4 at a concrete store and id. -/
theorem absent_id_empty_results_witness :
    Store.get [sampleApp] "zzzzzzzz" = none
    ∧ Store.update [sampleApp] "zzzzzzzz" [] "t" = (none, [sampleApp])
    ∧ Store.delete [sampleApp] "zzzzzzzz" = (false, [sampleApp]) := by
  obtain ⟨h1, h2, h3⟩ := absent_id_empty_results [sampleApp] "zzzzzzzz" (by decide)
  exact ⟨h1, h2 [] "t", h3⟩

/-! ### Helper lemmas about the UPDATE merge -/

theorem lookup_filter_allowed (fields : Fields) (col : String)
    (h : col ∈ allowedColumns) :
    (fields.filter (fun p => allowedColumns.contains p.1)).lookup col
      = fields.lookup col := by
  induction fields with
  | nil => rfl
  | cons kv rest ih =>
    obtain ⟨k, v⟩ := kv
    by_cases hk : col = k
    · subst hk
      simp [List.filter_cons, h, List.lookup]
    · have hne : (col == k) = false := by simpa using hk
      by_cases hmem : k ∈ allowedColumns
      · simpa [List.filter_cons, hmem, List.lookup, hne] using ih
      · simpa [List.filter_cons, hmem, List.lookup, hne] using ih

theorem applySet_eq_of_lookup_eq (f1 f2 : Fields) (a : Application)
    (h : ∀ c ∈ allowedColumns, f1.lookup c = f2.lookup c) :
    applySet f1 a = applySet f2 a := by
  unfold applySet
  revert h
  generalize allowedColumns = cols
  intro h
  induction cols generalizing a with
  | nil => rfl
  | cons c cs ih =>
    simp only [List.foldl_cons]
    rw [h c (by simp)]
    cases f2.lookup c with
    | none => exact ih a (fun c hc => h c (by simp [hc]))
    | some v => exact ih _ (fun c hc => h c (by simp [hc]))

theorem applySet_filter (fields : Fields) (a : Application) :
    applySet (fields.filter (fun p => allowedColumns.contains p.1)) a
      = applySet fields a :=
  applySet_eq_of_lookup_eq _ _ a
    (fun c hc => lookup_filter_allowed fields c hc)

theorem setCol_id_createdAt (a : Application) (col : String) (v : SqlValue) :
    (setCol a col v).id = a.id ∧ (setCol a col v).createdAt = a.createdAt := by
  unfold setCol
  repeat' split
  all_goals exact ⟨rfl, rfl⟩

theorem applySet_id_createdAt (fields : Fields) (a : Application) :
    (applySet fields a).id = a.id
      ∧ (applySet fields a).createdAt = a.createdAt := by
  unfold applySet
  generalize allowedColumns = cols
  induction cols generalizing a with
  | nil => exact ⟨rfl, rfl⟩
  | cons c cs ih =>
    simp only [List.foldl_cons]
    cases h : fields.lookup c with
    | none => simpa [h] using ih a
    | some v =>
      obtain ⟨h1, h2⟩ := ih (setCol a c v)
      obtain ⟨g1, g2⟩ := setCol_id_createdAt a c v
      simp only [h]
      exact ⟨h1.trans g1, h2.trans g2⟩

/-- C6: the columns `Update` assigns are exactly the supplied keys
intersected with the fixed nine-column whitelist — filtering the change set
to whitelisted keys changes nothing (unknown keys are ignored) — and the
`id` and `created_at` of every stored record survive any `Update`, whatever
keys the caller supplies. -/
theorem update_closed_whitelist (s : Store) (id : String) (fields : Fields)
    (now : String) :
    Store.update s id fields now
      = Store.update s id (fields.filter (fun p => allowedColumns.contains p.1)) now
    ∧ (Store.update s id fields now).2.map (fun a => (a.id, a.createdAt))
      = s.map (fun a => (a.id, a.createdAt)) := by
  have hassigned :
      allowedColumns.filter
        (fun col => ((fields.filter (fun p => allowedColumns.contains p.1)).lookup col).isSome)
      = allowedColumns.filter (fun col => (fields.lookup col).isSome) :=
    List.filter_congr (fun col hc => by rw [lookup_filter_allowed fields col hc])
  constructor
  · unfold Store.update
    cases h : s.find? (fun a => a.id == id) with
    | none => rfl
    | some ex =>
      simp only [hassigned]
      by_cases he : (allowedColumns.filter (fun col => (fields.lookup col).isSome)).isEmpty
      · simp [he]
      · have hmap :
            (fun a => if a.id == id then { applySet (fields.filter (fun p => allowedColumns.contains p.1)) a with updatedAt := now } else a)
            = (fun a => if a.id == id then { applySet fields a with updatedAt := now } else a) := by
          funext a
          rw [applySet_filter]
        simp only [he, hmap]
  · unfold Store.update
    cases h : s.find? (fun a => a.id == id) with
    | none => rfl
    | some ex =>
      by_cases he : (allowedColumns.filter (fun col => (fields.lookup col).isSome)).isEmpty
      · simp [he]
      · simp only [he, Bool.false_eq_true, if_false, List.map_map]
        apply List.map_congr_left
        intro a _
        simp only [Function.comp_apply]
        by_cases hid : a.id = id
        · simp [hid, (applySet_id_createdAt fields a).1,
            (applySet_id_createdAt fields a).2]
        · simp [hid]

/-! ### C5 -/

/-- If the pre-update store has a first row matching the id, the post-update
store's first matching row is the transformed one (the transformation
preserves the id on matching rows). -/
theorem find?_map_update (s : Store) (id : String)
    (g : Application → Application)
    (hg : ∀ x, (x.id == id) = true → ((g x).id == id) = true)
    (a : Application) (h : s.find? (fun x => x.id == id) = some a) :
    (s.map (fun x => if x.id == id then g x else x)).find?
        (fun x => x.id == id) = some (g a) := by
  induction s with
  | nil => simp at h
  | cons x xs ih =>
    rw [List.map_cons]
    by_cases hx : (x.id == id) = true
    · rw [if_pos hx,
        List.find?_cons_of_pos (p := fun y : Application => y.id == id) _ (hg x hx)]
      rw [List.find?_cons_of_pos (p := fun y : Application => y.id == id) _ hx] at h
      obtain rfl : x = a := by injection h
      rfl
    · rw [if_neg hx, List.find?_cons_of_neg (p := fun y : Application => y.id == id) _ hx]
      rw [List.find?_cons_of_neg (p := fun y : Application => y.id == id) _ hx] at h
      exact ih h

/-- C5 counterexample: `Update` stamps `updated_at` with the wall clock
formatted at RFC3339 second granularity, so a successful, column-changing
update issued in the same second as the previous write returns a record
whose `updated_at` equals — is not strictly greater than — its previous
value. -/
theorem updated_at_same_second_counterexample :
    (Store.update [sampleApp] "a1b2c3d4" [("status", SqlValue.str "applied")]
        "2026-02-01T00:00:00Z").1
      = some { sampleApp with status := "applied" }
    ∧ strLt sampleApp.updatedAt
        ({ sampleApp with status := "applied" } : Application).updatedAt
        = false := by
  constructor
  · decide
  · decide

/-- C5 (amended): a column-changing `Update` sets the record's `updated_at`
to the operation's current-time string, so `updated_at` strictly advances
exactly when that wall-clock string (RFC3339, second granularity) is
strictly greater than the stored one; within the same second it stays
equal. -/
theorem updated_at_advances (s : Store) (id : String) (fields : Fields)
    (now : String) (a : Application)
    (hget : Store.get s id = some a)
    (hassigned :
      ¬(allowedColumns.filter (fun col => (fields.lookup col).isSome)).isEmpty = true)
    (hnow : strLt a.updatedAt now = true) :
    (Store.update s id fields now).1
      = some { applySet fields a with updatedAt := now }
    ∧ strLt a.updatedAt
        ({ applySet fields a with updatedAt := now } : Application).updatedAt
        = true := by
  unfold Store.get at hget
  unfold Store.update
  rw [hget]
  simp only [if_neg hassigned]
  refine ⟨?_, hnow⟩
  exact find?_map_update s id
    (fun x => { applySet fields x with updatedAt := now })
    (fun x hx => by
      have hid : (applySet fields x).id = x.id := (applySet_id_createdAt fields x).1
      simpa [hid] using hx)
    a hget

/-- Witness for the amended C5 at a concrete store, change set and a strictly
later wall-clock second. -/
theorem updated_at_advances_witness :
    (Store.update [sampleApp] "a1b2c3d4" [("status", SqlValue.str "applied")]
        "2026-02-01T00:00:01Z").1
      = some { applySet [("status", SqlValue.str "applied")] sampleApp with
          updatedAt := "2026-02-01T00:00:01Z" }
    ∧ strLt sampleApp.updatedAt
        ({ applySet [("status", SqlValue.str "applied")] sampleApp with
            updatedAt := "2026-02-01T00:00:01Z" } : Application).updatedAt
        = true :=
  updated_at_advances [sampleApp] "a1b2c3d4"
    [("status", SqlValue.str "applied")] "2026-02-01T00:00:01Z" sampleApp
    (by decide) (by decide) (by decide)

/-! ### C7: the status breakdown of `Stats` -/

theorem mem_distinctKeys (l : List String) (y : String) :
    y ∈ distinctKeys l ↔ y ∈ l := by
  induction l with
  | nil => simp [distinctKeys]
  | cons x xs ih =>
    simp only [distinctKeys, List.mem_cons]
    constructor
    · rintro (rfl | hy)
      · exact Or.inl rfl
      · right
        exact ih.mp (List.mem_of_mem_filter hy)
    · rintro (rfl | hy)
      · exact Or.inl rfl
      · by_cases hxy : y = x
        · exact Or.inl hxy
        · right
          rw [List.mem_filter]
          exact ⟨ih.mpr hy, by simpa using hxy⟩

theorem lookup_map_overwrite_self (m : List (String × Nat)) (k : String)
    (v : Nat) (h : m.any (fun p => p.1 == k) = true) :
    (m.map (fun p => if p.1 == k then (k, v) else p)).lookup k = some v := by
  induction m with
  | nil => simp at h
  | cons p rest ih =>
    obtain ⟨k1, v1⟩ := p
    rw [List.map_cons]
    by_cases hp : (k1 == k) = true
    · rw [if_pos hp]
      simp [List.lookup]
    · rw [if_neg hp]
      have hr : rest.any (fun q => q.1 == k) = true := by
        rcases List.any_eq_true.mp h with ⟨q, hq, hqk⟩
        rcases List.mem_cons.mp hq with rfl | hq2
        · exact absurd hqk hp
        · exact List.any_eq_true.mpr ⟨q, hq2, hqk⟩
      have hkp : (k == k1) = false := by
        rw [beq_eq_false_iff_ne]
        intro hk
        exact hp (by simp [hk])
      simp only [List.lookup, hkp]
      exact ih hr

theorem lookup_map_overwrite_other (m : List (String × Nat)) (k st : String)
    (v : Nat) (h : ¬st = k) :
    (m.map (fun p => if p.1 == k then (k, v) else p)).lookup st
      = m.lookup st := by
  induction m with
  | nil => rfl
  | cons p rest ih =>
    obtain ⟨k1, v1⟩ := p
    rw [List.map_cons]
    by_cases hp : (k1 == k) = true
    · rw [if_pos hp]
      have hpk : k1 = k := by simpa using hp
      have h1 : (st == k) = false := beq_eq_false_iff_ne.mpr h
      have h2 : (st == k1) = false := by
        rw [hpk]
        exact h1
      simp only [List.lookup, h1, h2]
      exact ih
    · rw [if_neg hp]
      simp only [List.lookup]
      cases hsk : st == k1 with
      | true => rfl
      | false => exact ih

theorem lookup_append_self (m : List (String × Nat)) (k : String) (v : Nat)
    (h : m.any (fun p => p.1 == k) = false) :
    (m ++ [(k, v)]).lookup k = some v := by
  induction m with
  | nil => simp [List.lookup]
  | cons p rest ih =>
    obtain ⟨k1, v1⟩ := p
    have hp : (k1 == k) = false := by
      by_cases hx : (k1 == k) = true
      · exfalso
        have : (((k1, v1) :: rest).any (fun q => q.1 == k)) = true :=
          List.any_eq_true.mpr ⟨(k1, v1), List.mem_cons_self _ _, hx⟩
        rw [h] at this
        exact Bool.false_ne_true this
      · simpa using hx
    have hr : rest.any (fun q => q.1 == k) = false := by
      by_cases hx : rest.any (fun q => q.1 == k) = true
      · exfalso
        rcases List.any_eq_true.mp hx with ⟨q, hq, hqk⟩
        have : (((k1, v1) :: rest).any (fun q => q.1 == k)) = true :=
          List.any_eq_true.mpr ⟨q, List.mem_cons_of_mem _ hq, hqk⟩
        rw [h] at this
        exact Bool.false_ne_true this
      · exact Bool.eq_false_iff.mpr hx
    have hkp : (k == k1) = false := by
      rw [beq_eq_false_iff_ne]
      intro hk
      rw [beq_eq_false_iff_ne] at hp
      exact hp hk.symm
    rw [List.cons_append]
    simp only [List.lookup, hkp]
    exact ih hr

theorem lookup_append_other (m : List (String × Nat)) (k st : String)
    (v : Nat) (h : ¬st = k) :
    (m ++ [(k, v)]).lookup st = m.lookup st := by
  induction m with
  | nil =>
    have h1 : (st == k) = false := beq_eq_false_iff_ne.mpr h
    simp [List.lookup, h1]
  | cons p rest ih =>
    obtain ⟨k1, v1⟩ := p
    rw [List.cons_append]
    simp only [List.lookup]
    cases hsk : st == k1 with
    | true => rfl
    | false => exact ih

theorem lookup_setEntry_self (m : List (String × Nat)) (k : String) (v : Nat) :
    (setEntry m k v).lookup k = some v := by
  unfold setEntry
  by_cases h : m.any (fun p => p.1 == k) = true
  · rw [if_pos h]
    exact lookup_map_overwrite_self m k v h
  · have hf : m.any (fun p => p.1 == k) = false := Bool.eq_false_iff.mpr h
    rw [if_neg h]
    exact lookup_append_self m k v hf

theorem lookup_setEntry_other (m : List (String × Nat)) (k st : String)
    (v : Nat) (h : ¬st = k) :
    (setEntry m k v).lookup st = m.lookup st := by
  unfold setEntry
  by_cases hm : m.any (fun p => p.1 == k) = true
  · rw [if_pos hm]
    exact lookup_map_overwrite_other m k st v h
  · rw [if_neg hm]
    exact lookup_append_other m k st v h

theorem lookup_fold_setEntry (ds : List String) (c : String → Nat)
    (m0 : List (String × Nat)) (st : String) :
    ((ds.foldl (fun m k => setEntry m k (c k)) m0).lookup st)
      = if st ∈ ds then some (c st) else m0.lookup st := by
  induction ds generalizing m0 with
  | nil => simp
  | cons k ks ih =>
    simp only [List.foldl_cons]
    rw [ih]
    by_cases hks : st ∈ ks
    · simp [hks]
    · by_cases hk : st = k
      · subst hk
        simp [hks, lookup_setEntry_self]
      · simp [hks, hk, lookup_setEntry_other _ _ _ _ hk]

theorem lookup_const_map (xs : List String) (st : String) (c : Nat) :
    ((xs.map (fun s => (s, c))).lookup st)
      = if st ∈ xs then some c else none := by
  induction xs with
  | nil => rfl
  | cons x rest ih =>
    rw [List.map_cons]
    simp only [List.lookup]
    by_cases hx : st = x
    · subst hx
      simp
    · have h1 : (st == x) = false := beq_eq_false_iff_ne.mpr hx
      simp only [h1, ih]
      simp [hx]

/-- C7: the status breakdown of `Stats` is never sparse — every one of the
nine enumerated statuses is present, carrying the exact number of records
with that status (0 when none has it) — and on an empty store `Stats`
returns total 0, all nine statuses with count 0, a zero salary range and
zero activity windows. -/
theorem stats_status_breakdown (s : Store) (d7 d30 : String) :
    (∀ st ∈ validStatuses,
      (Store.stats s d7 d30).byStatus.lookup st
        = some (s.countP (fun a => a.status == st)))
    ∧ Store.stats ([] : Store) d7 d30
        = { total := 0
            byStatus := validStatuses.map (fun st => (st, 0))
            salaryRange := { min := 0, max := 0, avg := 0 }
            last7Days := 0
            last30Days := 0 } := by
  constructor
  · intro st hst
    show (((distinctKeys (s.map (fun a => a.status))).map
        (fun st2 => (st2, s.countP (fun a => a.status == st2)))).foldl
        (fun m g => setEntry m g.1 g.2)
        (validStatuses.map (fun st2 => (st2, 0)))).lookup st
      = some (s.countP (fun a => a.status == st))
    rw [List.foldl_map]
    rw [lookup_fold_setEntry]
    by_cases hmem : st ∈ distinctKeys (s.map (fun a => a.status))
    · simp [hmem]
    · rw [if_neg hmem, lookup_const_map, if_pos hst]
      have hnost : ∀ a ∈ s, ¬(a.status == st) = true := by
        intro a ha hak
        exact hmem ((mem_distinctKeys _ _).mpr
          (List.mem_map.mpr ⟨a, ha, by simpa using hak⟩))
      rw [List.countP_eq_zero.mpr hnost]
  · rfl

/-- Witness for C7 at a concrete store and status. -/
theorem stats_status_breakdown_witness :
    (Store.stats [sampleApp] "a" "b").byStatus.lookup "applied"
      = some (([sampleApp] : Store).countP (fun a => a.status == "applied")) :=
  (stats_status_breakdown [sampleApp] "a" "b").1 "applied" (by decide)

/-! ### C8: the salary aggregate of `Stats` -/

/-- The two-record table of the spec's salary example: lower bounds
`\x7b0, 100000\x7d`, upper bounds `\x7b0, 150000\x7d`. -/
def salaryDemo : Store :=
  [{ sampleApp with id := "00000001" },
   { sampleApp with id := "00000002", salaryMin := 100000, salaryMax := 150000 }]

/-- C8: the salary range of `Stats` is computed only over records whose
`salary_min` is strictly positive — a record with a non-positive lower bound
never influences it; if no record qualifies all three values are 0; and on
the spec's `\x7b0,100000\x7d`/`\x7b0,150000\x7d` example the reported minimum
is 100000 (not 0), the maximum 150000 and the average 100000. -/
theorem stats_salary_sentinel (s : Store) (a : Application) (d7 d30 : String) :
    (a.salaryMin ≤ 0 →
      (Store.stats (a :: s) d7 d30).salaryRange
        = (Store.stats s d7 d30).salaryRange)
    ∧ ((∀ x ∈ s, x.salaryMin ≤ 0) →
      (Store.stats s d7 d30).salaryRange = { min := 0, max := 0, avg := 0 })
    ∧ (Store.stats salaryDemo d7 d30).salaryRange
        = { min := 100000, max := 150000, avg := 100000 } := by
  have hproj : ∀ (t : Store),
      (Store.stats t d7 d30).salaryRange
        = salaryAgg (t.filter (fun x => decide (0 < x.salaryMin))) :=
    fun t => rfl
  refine ⟨?_, ?_, ?_⟩
  · intro h
    rw [hproj, hproj]
    have hna : ¬(decide (0 < a.salaryMin) = true) := by
      simpa using not_lt.mpr h
    rw [List.filter_cons_of_neg
      (p := fun x : Application => decide (0 < x.salaryMin)) hna]
  · intro h
    rw [hproj]
    have hnil : s.filter (fun x => decide (0 < x.salaryMin)) = [] := by
      rw [List.filter_eq_nil_iff]
      intro x hx
      simpa using not_lt.mpr (h x hx)
    rw [hnil]
    rfl
  · rw [hproj]
    decide

/-- Witness for C8: a zero-bound record prepended to the example table does
not change the salary range, and a store whose only record has the sentinel
bounds reports an all-zero range. -/
theorem stats_salary_sentinel_witness :
    (Store.stats (sampleApp :: salaryDemo) "a" "b").salaryRange
      = (Store.stats salaryDemo "a" "b").salaryRange
    ∧ (Store.stats [sampleApp] "a" "b").salaryRange
      = { min := 0, max := 0, avg := 0 }
    ∧ (Store.stats salaryDemo "a" "b").salaryRange
      = { min := 100000, max := 150000, avg := 100000 } :=
  ⟨(stats_salary_sentinel salaryDemo sampleApp "a" "b").1 (by decide),
   (stats_salary_sentinel [sampleApp] sampleApp "a" "b").2.1 (by decide),
   (stats_salary_sentinel salaryDemo sampleApp "a" "b").2.2⟩

/-! ### C9: pagination and ordering of `List` -/

theorem charsLe_total (x y : List Char) : (charsLe x y || charsLe y x) = true := by
  induction x generalizing y with
  | nil => simp [charsLe]
  | cons c cs ih =>
    cases y with
    | nil => simp [charsLe]
    | cons d ds =>
      by_cases hcd : c = d
      · subst hcd
        simpa [charsLe] using ih ds
      · have hdc : ¬d = c := fun h2 => hcd h2.symm
        rcases lt_or_gt_of_ne hcd with hlt | hgt
        · simp [charsLe, hcd, hdc, hlt]
        · simp [charsLe, hcd, hdc, hgt]

theorem charsLe_trans (x y z : List Char) (h1 : charsLe x y = true)
    (h2 : charsLe y z = true) : charsLe x z = true := by
  induction x generalizing y z with
  | nil => simp [charsLe]
  | cons c cs ih =>
    cases y with
    | nil => simp [charsLe] at h1
    | cons d ds =>
      cases z with
      | nil => simp [charsLe] at h2
      | cons e es =>
        by_cases hcd : c = d <;> by_cases hde : d = e
        · subst hcd
          subst hde
          simp only [charsLe, if_pos rfl] at h1 h2 ⊢
          exact ih ds es h1 h2
        · subst hcd
          simp only [charsLe, if_pos rfl, if_neg hde] at h2 ⊢
          exact h2
        · subst hde
          simp only [charsLe, if_pos rfl, if_neg hcd] at h1 ⊢
          exact h1
        · simp only [charsLe, if_neg hcd, if_neg hde] at h1 h2
          have hce : c < e := lt_trans (of_decide_eq_true h1) (of_decide_eq_true h2)
          have hne : ¬c = e := ne_of_lt hce
          simp only [charsLe, if_neg hne]
          exact decide_eq_true hce

theorem updatedAtDesc_total (a b : Application) :
    (updatedAtDesc a b || updatedAtDesc b a) = true :=
  charsLe_total b.updatedAt.toList a.updatedAt.toList

theorem updatedAtDesc_trans (a b c : Application)
    (h1 : updatedAtDesc a b = true) (h2 : updatedAtDesc b c = true) :
    updatedAtDesc a c = true :=
  charsLe_trans c.updatedAt.toList b.updatedAt.toList a.updatedAt.toList h2 h1

theorem sqlSlice_sublist (limit offset : Int) (l : List Application) :
    (sqlSlice limit offset l).Sublist l := by
  unfold sqlSlice
  by_cases h : limit < 0
  · simpa [h] using List.drop_sublist offset.toNat l
  · simp only [h, if_false]
    exact ((l.drop offset.toNat).take_sublist limit.toNat).trans
      (List.drop_sublist offset.toNat l)

/-- Five records sharing the default status, as in the spec's pagination
example. -/
def demo9 : Store :=
  [{ sampleApp with id := "00000011", updatedAt := "2026-02-01T00:00:01Z" },
   { sampleApp with id := "00000012", updatedAt := "2026-02-01T00:00:02Z" },
   { sampleApp with id := "00000013", updatedAt := "2026-02-01T00:00:03Z" },
   { sampleApp with id := "00000014", updatedAt := "2026-02-01T00:00:04Z" },
   { sampleApp with id := "00000015", updatedAt := "2026-02-01T00:00:05Z" }]

/-- C9: `List` always yields a list (an empty specification over an empty
store yields the empty list, never a null result); the limit/offset slice is
applied after filtering and ordering, so the result length is
`min limit (matching - offset)`; the result is ordered by `updated_at`
descending; and on a five-record table `List(limit=2, offset=4)` returns 1
record, `List(limit=2, offset=10)` returns none, while `Count` still
reports 5. -/
theorem list_pagination_ordered :
    (∀ (s : Store) (status : String) (l o : Int), 0 ≤ l →
      (Store.list s status l o).length
        = min l.toNat (Store.count s status - o.toNat))
    ∧ (∀ (s : Store) (status : String) (l o : Int),
      (Store.list s status l o).Pairwise (fun a b => updatedAtDesc a b = true))
    ∧ Store.list ([] : Store) "" 50 0 = []
    ∧ (Store.list demo9 "" 2 4).length = 1
    ∧ Store.list demo9 "" 2 10 = []
    ∧ Store.count demo9 "" = 5 := by
  refine ⟨?_, ?_, rfl, by decide, by decide, rfl⟩
  · intro s status l o hl
    unfold Store.list sqlSlice Store.count
    have hnl : ¬l < 0 := not_lt.mpr hl
    by_cases hst : (status == "") = true <;>
      simp [hst, hnl, List.length_take, List.length_drop,
        List.length_insertionSort]
  · intro s status l o
    unfold Store.list
    haveI : IsTrans Application (fun a b => updatedAtDesc a b = true) :=
      ⟨fun a b c => updatedAtDesc_trans a b c⟩
    haveI : IsTotal Application (fun a b => updatedAtDesc a b = true) :=
      ⟨fun a b => by
        have h : updatedAtDesc a b = true ∨ updatedAtDesc b a = true := by
          simpa using updatedAtDesc_total a b
        exact h⟩
    exact List.Pairwise.sublist (sqlSlice_sublist _ _ _)
      (List.sorted_insertionSort _ _)

/-- Witness for C9's pagination law at concrete inputs. -/
theorem list_pagination_ordered_witness :
    (Store.list demo9 "" 2 0).length
      = min (2 : Int).toNat (Store.count demo9 "" - (0 : Int).toNat) :=
  list_pagination_ordered.1 demo9 "" 2 0 (by decide)

/-! ### C1 and C2: the shared predicate of `List` and `Count` -/

/-- C1: for any filter specification, `Count` equals the number of records an
exhaustive `List` (offset 0, limit at least the table size) returns — both
evaluate the same `buildWhere` predicate, and the limit/offset slice of such
a `List` keeps every filtered row. -/
theorem count_eq_full_list_length (s : Store) (opts : ListOptions)
    (hoff : opts.offset = 0) (hlim : (s.length : Int) ≤ opts.limit) :
    (Store.listOpts s opts).length = Store.countOpts s opts := by
  unfold Store.listOpts Store.countOpts sqlSlice
  rw [hoff]
  have hlen : (List.insertionSort (fun a b => resolveLe opts a b = true)
      (s.filter (matchesWhere opts))).length
      = (s.filter (matchesWhere opts)).length :=
    List.length_insertionSort _ _
  have hfl : (s.filter (matchesWhere opts)).length ≤ s.length :=
    List.length_filter_le _ _
  have h0 : ¬opts.limit < 0 := by omega
  simp only [h0, if_false, Int.toNat_zero, List.drop_zero]
  rw [List.length_take, hlen]
  omega

/-- Witness for C1 on a one-row store with a limit beyond the table size. -/
theorem count_eq_full_list_length_witness :
    (Store.listOpts [sampleApp] { limit := 5 }).length
      = Store.countOpts [sampleApp] { limit := 5 } :=
  count_eq_full_list_length [sampleApp] { limit := 5 } rfl (by decide)

/-- C2: an upper-bound salary filter with a bound ≤ 0 admits no record at
all — the predicate also demands `salary_max > 0` — so `List` returns the
empty sequence and `Count` returns 0 on every store. -/
theorem salary_max_lte_zero_matches_nothing (s : Store) (opts : ListOptions)
    (hset : opts.hasSalaryMaxLTE = true) (hle : opts.salaryMaxLTE ≤ 0) :
    Store.listOpts s opts = [] ∧ Store.countOpts s opts = 0 := by
  have hnil : s.filter (matchesWhere opts) = [] := by
    rw [List.filter_eq_nil_iff]
    intro a _
    intro hmatch
    unfold matchesWhere at hmatch
    simp only [hset, Bool.not_true, Bool.false_or, Bool.and_eq_true,
      decide_eq_true_eq] at hmatch
    obtain ⟨-, h1, h2⟩ := hmatch
    omega
  constructor
  · unfold Store.listOpts sqlSlice
    rw [hnil]
    simp
  · unfold Store.countOpts
    rw [hnil]
    rfl

/-- Witness for C2 on the two-row salary table with bound 0. -/
theorem salary_max_lte_zero_matches_nothing_witness :
    Store.listOpts salaryDemo { hasSalaryMaxLTE := true, limit := 10 } = []
    ∧ Store.countOpts salaryDemo { hasSalaryMaxLTE := true, limit := 10 } = 0 :=
  salary_max_lte_zero_matches_nothing salaryDemo
    { hasSalaryMaxLTE := true, limit := 10 } rfl (by decide)

/-! ### C10: absent salary bounds are stored as the 0 sentinel -/

/-- C10 counterexample: a record created without salary data (both bounds
stored as the 0 sentinel) is not invisible to every salary-range filter — a
lower-bound filter with bound 0 still matches it, because the sentinel
exclusion applies only to the upper-bound condition. -/
theorem created_without_salary_min_filter_counterexample :
    (Store.create [] { company := "TestCo", role := "Engineer" } "a1b2c3d4"
        "2026-02-01T00:00:00Z").2 = [sampleApp]
    ∧ sampleApp.salaryMin = 0
    ∧ Store.listOpts [sampleApp]
        { hasSalaryMinGTE := true, salaryMinGTE := 0, limit := 10 }
      = [sampleApp] := by
  refine ⟨rfl, rfl, ?_⟩
  decide

/-- C10 (amended): `Create` stores the 0 sentinel for each absent salary
bound; such a record never matches an upper-bound salary filter, fails any
lower-bound filter whose bound is strictly positive (a lower bound of 0
still matches it), and never contributes to the `Stats` salary aggregate. -/
theorem create_stores_sentinel (s : Store) (req : CreateRequest)
    (id now : String) (hmin : req.salaryMin = none)
    (hmax : req.salaryMax = none) :
    (Store.create s req id now).2 = s ++ [mkRow req id now]
    ∧ (mkRow req id now).salaryMin = 0
    ∧ (mkRow req id now).salaryMax = 0
    ∧ (∀ opts : ListOptions, opts.hasSalaryMaxLTE = true →
        matchesWhere opts (mkRow req id now) = false)
    ∧ (∀ opts : ListOptions, opts.hasSalaryMinGTE = true →
        0 < opts.salaryMinGTE →
        matchesWhere opts (mkRow req id now) = false)
    ∧ (∀ d7 d30 : String,
        (Store.stats (s ++ [mkRow req id now]) d7 d30).salaryRange
          = (Store.stats s d7 d30).salaryRange) := by
  have hrowmin : (mkRow req id now).salaryMin = 0 := by
    show req.salaryMin.getD 0 = 0
    rw [hmin]
    rfl
  have hrowmax : (mkRow req id now).salaryMax = 0 := by
    show req.salaryMax.getD 0 = 0
    rw [hmax]
    rfl
  refine ⟨rfl, hrowmin, hrowmax, ?_, ?_, ?_⟩
  · intro opts h
    unfold matchesWhere
    rw [hrowmax]
    simp [h]
  · intro opts h hpos
    unfold matchesWhere
    rw [hrowmin]
    simp [h, not_le.mpr hpos]
  · intro d7 d30
    have hproj : ∀ (t : Store),
        (Store.stats t d7 d30).salaryRange
          = salaryAgg (t.filter (fun x => decide (0 < x.salaryMin))) :=
      fun t => rfl
    rw [hproj, hproj, List.filter_append]
    have hone : [mkRow req id now].filter (fun x => decide (0 < x.salaryMin))
        = [] := by
      simp [hrowmin]
    rw [hone, List.append_nil]

/-- Witness for the amended C10 at a concrete salary-less request. -/
theorem create_stores_sentinel_witness :
    (mkRow { company := "TestCo", role := "Engineer" } "a1b2c3d4" "t").salaryMin
      = 0
    ∧ matchesWhere { hasSalaryMaxLTE := true, salaryMaxLTE := 100 }
        (mkRow { company := "TestCo", role := "Engineer" } "a1b2c3d4" "t")
      = false := by
  obtain ⟨-, h2, -, h4, -, -⟩ := create_stores_sentinel []
    { company := "TestCo", role := "Engineer" } "a1b2c3d4" "t" rfl rfl
  exact ⟨h2, h4 _ rfl⟩
